import Mathlib

/-!
Verification of the SageMaker GenAI hosting example notebooks.

The development shallowly embeds the Python glue code of the repository:
the two-stage custom inference workflow orchestrator
(`PythonCustomInferenceEntryPoint`), the payload helper `get_image_urls`,
the model-preparation cells that mutate the built model, the resource
request and scheduled `createInferenceComponent` input records, and the
schedule clean-up loop.  JSON documents are modelled by an inductive type
`Json` (numbers restricted to integers, which covers every document the
notebooks build), `json.loads` by a fuel-indexed recursive-descent parser
and `json.dumps` by a serializer.  Python exceptions are modelled by the
`PyError` type and fallible code returns `Except PyError _`.
-/

namespace SMExamples

/-- JSON documents, as produced by Python's `json.loads`.
Numbers are modelled as integers: every numeric literal in the notebooks
is an integer. -/
inductive Json where
  | null : Json
  | bool (b : Bool) : Json
  | num (n : Int) : Json
  | str (s : String) : Json
  | arr (elems : List Json) : Json
  | obj (fields : List (String × Json)) : Json

/-- Python exceptions that the embedded code can raise. -/
inductive PyError where
  | clientError (msg : String)
  | jsonDecodeError (msg : String)
  | keyError (k : String)
  | typeError
  | indexError (i : Nat)
deriving DecidableEq

/-- Python `d[k]` on a parsed JSON value: `KeyError` on a missing key of a
dict, `TypeError` when subscripting a non-dict with a string key. -/
def Json.getItem : Json → String → Except PyError Json
  | .obj fields, k =>
    match fields.lookup k with
    | some v => .ok v
    | none => .error (.keyError k)
  | _, _ => .error .typeError

/-- Pure field lookup (no exception), used to state specifications. -/
def Json.field? : Json → String → Option Json
  | .obj fields, k => fields.lookup k
  | _, _ => none

/-- Python `for x in j`: lists yield their elements, strings their
characters (as 1-character strings), dicts their keys; other values raise
`TypeError`. -/
def Json.iterElems : Json → Except PyError (List Json)
  | .arr elems => .ok elems
  | .str s => .ok (s.toList.map (fun c => .str (String.singleton c)))
  | .obj fields => .ok (fields.map (fun kv => .str kv.1))
  | _ => .error .typeError

/-- Escape one character the way `json.dumps` does for the characters the
notebooks use (quote and backslash). -/
def escapeChar (c : Char) : String :=
  if c = '"' then "\\\"" else if c = '\\' then "\\\\" else String.singleton c

/-- Serialize a JSON string body. -/
def escapeString (s : String) : String :=
  String.join (s.toList.map escapeChar)

mutual

/-- Python `json.dumps` (with its default separators). -/
def Json.dumps : Json → String
  | .null => "null"
  | .bool true => "true"
  | .bool false => "false"
  | .num n => toString n
  | .str s => "\"" ++ escapeString s ++ "\""
  | .arr elems => "[" ++ dumpsElems elems ++ "]"
  | .obj fields => "\x7b" ++ dumpsFields fields ++ "\x7d"

/-- Comma-separated serialization of array elements. -/
def dumpsElems : List Json → String
  | [] => ""
  | [j] => Json.dumps j
  | j :: rest => Json.dumps j ++ ", " ++ dumpsElems rest

/-- Comma-separated serialization of object members. -/
def dumpsFields : List (String × Json) → String
  | [] => ""
  | [kv] => "\"" ++ escapeString kv.1 ++ "\": " ++ Json.dumps kv.2
  | kv :: rest =>
      "\"" ++ escapeString kv.1 ++ "\": " ++ Json.dumps kv.2 ++ ", " ++ dumpsFields rest

end

/-- Skip JSON whitespace. -/
def skipWs : List Char → List Char
  | c :: cs => if c = ' ' ∨ c = '\n' ∨ c = '\t' ∨ c = '\r' then skipWs cs else c :: cs
  | [] => []

/-- Unescape one escape character inside a JSON string literal. -/
def unescapeChar (c : Char) : Char :=
  if c = 'n' then '\n' else if c = 't' then '\t' else if c = 'r' then '\r' else c

/-- Parse the body of a JSON string literal, after the opening quote. -/
def parseStringBody : List Char → Except PyError (String × List Char)
  | [] => .error (.jsonDecodeError "unterminated string")
  | '"' :: rest => .ok ("", rest)
  | '\\' :: e :: rest =>
    match parseStringBody rest with
    | .ok (s, r) => .ok (String.singleton (unescapeChar e) ++ s, r)
    | .error err => .error err
  | c :: rest =>
    match parseStringBody rest with
    | .ok (s, r) => .ok (String.singleton c ++ s, r)
    | .error err => .error err

/-- Digits to a natural number. -/
def digitsToNat (ds : List Char) : Nat :=
  ds.foldl (fun a c => a * 10 + (c.toNat - 48)) 0

/-- Parse a JSON integer literal. -/
def parseNumber (cs : List Char) : Except PyError (Json × List Char) :=
  match cs with
  | '-' :: rest =>
    let ds := rest.takeWhile Char.isDigit
    if ds.isEmpty then .error (.jsonDecodeError "expecting value")
    else .ok (.num (-(digitsToNat ds : Int)), rest.dropWhile Char.isDigit)
  | _ =>
    let ds := cs.takeWhile Char.isDigit
    if ds.isEmpty then .error (.jsonDecodeError "expecting value")
    else .ok (.num (digitsToNat ds : Int), cs.dropWhile Char.isDigit)

mutual

/-- Fuel-indexed recursive-descent parser for one JSON value. -/
def parseValue : Nat → List Char → Except PyError (Json × List Char)
  | 0, _ => .error (.jsonDecodeError "out of fuel")
  | fuel + 1, cs =>
    match skipWs cs with
    | [] => .error (.jsonDecodeError "expecting value")
    | '"' :: rest =>
      match parseStringBody rest with
      | .ok (s, r) => .ok (.str s, r)
      | .error err => .error err
    | '[' :: rest =>
      match skipWs rest with
      | ']' :: r => .ok (.arr [], r)
      | other => parseElems fuel other
    | '\x7b' :: rest =>
      match skipWs rest with
      | '\x7d' :: r => .ok (.obj [], r)
      | other => parseMembers fuel other
    | cs' =>
      if cs'.take 4 = ['t', 'r', 'u', 'e'] then .ok (.bool true, cs'.drop 4)
      else if cs'.take 5 = ['f', 'a', 'l', 's', 'e'] then .ok (.bool false, cs'.drop 5)
      else if cs'.take 4 = ['n', 'u', 'l', 'l'] then .ok (.null, cs'.drop 4)
      else parseNumber cs'

/-- Parse the elements of a non-empty JSON array, then the closing bracket. -/
def parseElems : Nat → List Char → Except PyError (Json × List Char)
  | 0, _ => .error (.jsonDecodeError "out of fuel")
  | fuel + 1, cs =>
    match parseValue fuel cs with
    | .error err => .error err
    | .ok (j, rest) =>
      match skipWs rest with
      | ']' :: r => .ok (.arr [j], r)
      | ',' :: r =>
        match parseElems fuel r with
        | .ok (Json.arr elems, r') => .ok (.arr (j :: elems), r')
        | .ok _ => .error (.jsonDecodeError "malformed array")
        | .error err => .error err
      | _ => .error (.jsonDecodeError "expecting , delimiter")

/-- Parse the members of a non-empty JSON object, then the closing brace. -/
def parseMembers : Nat → List Char → Except PyError (Json × List Char)
  | 0, _ => .error (.jsonDecodeError "out of fuel")
  | fuel + 1, cs =>
    match skipWs cs with
    | '"' :: rest =>
      match parseStringBody rest with
      | .error err => .error err
      | .ok (k, afterKey) =>
        match skipWs afterKey with
        | ':' :: afterColon =>
          match parseValue fuel afterColon with
          | .error err => .error err
          | .ok (v, rest') =>
            match skipWs rest' with
            | '\x7d' :: r => .ok (.obj [(k, v)], r)
            | ',' :: r =>
              match parseMembers fuel r with
              | .ok (Json.obj fields, r') => .ok (.obj ((k, v) :: fields), r')
              | .ok _ => .error (.jsonDecodeError "malformed object")
              | .error err => .error err
            | _ => .error (.jsonDecodeError "expecting , delimiter")
        | _ => .error (.jsonDecodeError "expecting : delimiter")
    | _ => .error (.jsonDecodeError "expecting property name")

end

/-- Python `json.loads`. -/
def Json.loads (s : String) : Except PyError Json :=
  match parseValue (2 * s.length + 2) s.toList with
  | .ok (j, rest) =>
    if skipWs rest = [] then .ok j else .error (.jsonDecodeError "extra data")
  | .error err => .error err

/-! ## The two-stage custom inference workflow orchestrator

Embedding of `CustomOrchestrator` and `PythonCustomInferenceEntryPoint`
from the Llama3.1/Mistral workflow notebook.  A `boto3` runtime client is
modelled as an environment `Env` mapping an `invoke_endpoint` call to the
string read from the response `Body`, or to the exception the client
raises.  The trace of issued calls is returned alongside the result. -/

/-- The arguments of one `invoke_endpoint` call. -/
structure InvokeCall where
  endpointName : String
  body : String
  contentType : String
  inferenceComponentName : String
deriving DecidableEq

/-- The remote side: each call either yields the string read from the
response `Body` or raises a client exception. -/
def Env : Type := InvokeCall → Except PyError String

/-- The configuration attributes set by
`PythonCustomInferenceEntryPoint.__init__`. -/
structure Config where
  region_name : String
  endpoint_name : String
  component_names : List String
deriving DecidableEq

/-- `PythonCustomInferenceEntryPoint.__init__`. -/
def Config.init (region_name endpoint_name : String) (component_names : List String) :
    Config :=
  ⟨region_name, endpoint_name, component_names⟩

/-- The payload sent to the second (Mistral) component: the first model's
generated text under `inputs`, with `max_new_tokens` 50. -/
def mistralPayload (llama_generated_text : Json) : Json :=
  .obj [("inputs", llama_generated_text),
        ("parameters", .obj [("max_new_tokens", .num 50)])]

/-- The first `invoke_endpoint` call of `_invoke_workflow`: the request
body is forwarded verbatim to component 0. -/
def firstCall (cfg : Config) (data component0 : String) : InvokeCall :=
  ⟨cfg.endpoint_name, data, "application/json", component0⟩

/-- The second `invoke_endpoint` call of `_invoke_workflow`: the dumped
`mistralPayload` is sent to component 1. -/
def secondCall (cfg : Config) (llama_generated_text : Json) (component1 : String) :
    InvokeCall :=
  ⟨cfg.endpoint_name, Json.dumps (mistralPayload llama_generated_text),
   "application/json", component1⟩

/-- `PythonCustomInferenceEntryPoint._invoke_workflow`, returning the
result (or the propagated exception) together with the list of remote
calls issued, in order. -/
def invoke_workflow (cfg : Config) (env : Env) (data : String) :
    Except PyError Json × List InvokeCall :=
  match cfg.component_names.get? 0 with
  | none => (.error (.indexError 0), [])
  | some component0 =>
    let call1 := firstCall cfg data component0
    match env call1 with
    | .error e => (.error e, [call1])
    | .ok body1 =>
      match Json.loads body1 with
      | .error e => (.error e, [call1])
      | .ok resp1 =>
        match resp1.getItem "generated_text" with
        | .error e => (.error e, [call1])
        | .ok llama_generated_text =>
          match cfg.component_names.get? 1 with
          | none => (.error (.indexError 1), [call1])
          | some component1 =>
            let call2 := secondCall cfg llama_generated_text component1
            match env call2 with
            | .error e => (.error e, [call1, call2])
            | .ok body2 =>
              match Json.loads body2 with
              | .error e => (.error e, [call1, call2])
              | .ok resp2 =>
                match resp2.getItem "generated_text" with
                | .error e => (.error e, [call1, call2])
                | .ok generated => (.ok generated, [call1, call2])

/-- `PythonCustomInferenceEntryPoint.handle(self, data, context=None)`:
it forwards to `_invoke_workflow(data)` and never reads `context`. -/
def handle (cfg : Config) (env : Env) (data : String) (contextArg : Option Json) :
    Except PyError Json × List InvokeCall :=
  invoke_workflow cfg env data

/-- State-passing form of `handle`: a Python method on `self` maps the
attribute state before the call to the attribute state after it.  The
body of `handle`/`_invoke_workflow` contains no assignment to any
attribute of `self`, so the final state is the initial one. -/
def handleSt (self : Config) (env : Env) (data : String) (contextArg : Option Json) :
    (Except PyError Json × List InvokeCall) × Config :=
  (handle self env data contextArg, self)

/-- The abstract base class `CustomOrchestrator`: an interface with the
single required method `handle(data, context)`. -/
structure CustomOrchestrator where
  handle : String → Option Json → Except PyError Json × List InvokeCall

/-- The concrete subclass, as an implementation of the interface: its
`handle` slot is `PythonCustomInferenceEntryPoint.handle`. -/
def pythonCustomInferenceEntryPoint (cfg : Config) (env : Env) : CustomOrchestrator :=
  ⟨fun data contextArg => handle cfg env data contextArg⟩

/-! ## `get_image_urls`

Embedding of the helper defined identically in both notebooks: it
`json.loads` the payload, walks `payload["messages"]`, and collects
`ms["image_url"]["url"]` for every content entry `ms` with
`ms["type"] == "image_url"` inside messages whose `content` is a list. -/

/-- Python `typ == "image_url"`: true exactly when `typ` is that string. -/
def isImageUrlType (typ : Json) : Bool :=
  match typ with
  | .str s => s = "image_url"
  | _ => false

/-- The inner `for ms in msg["content"]` loop of `get_image_urls`. -/
def collect_entry_urls : List Json → Except PyError (List Json)
  | [] => .ok []
  | ms :: rest =>
    match ms.getItem "type" with
    | .error e => .error e
    | .ok typ =>
      if isImageUrlType typ then
        match ms.getItem "image_url" with
        | .error e => .error e
        | .ok imageUrlObj =>
          match imageUrlObj.getItem "url" with
          | .error e => .error e
          | .ok image_url =>
            match collect_entry_urls rest with
            | .error e => .error e
            | .ok urls => .ok (image_url :: urls)
      else collect_entry_urls rest

/-- The outer `for msg in payload["messages"]` loop of `get_image_urls`:
only messages whose `content` is exactly a `list` are scanned. -/
def collect_message_urls : List Json → Except PyError (List Json)
  | [] => .ok []
  | msg :: rest =>
    match msg.getItem "content" with
    | .error e => .error e
    | .ok content =>
      match content with
      | .arr entries =>
        match collect_entry_urls entries with
        | .error e => .error e
        | .ok urls =>
          match collect_message_urls rest with
          | .error e => .error e
          | .ok urls' => .ok (urls ++ urls')
      | _ => collect_message_urls rest

/-- `get_image_urls(payload)` from the notebooks. -/
def get_image_urls (payload : String) : Except PyError (List Json) :=
  match Json.loads payload with
  | .error e => .error e
  | .ok parsed =>
    match parsed.getItem "messages" with
    | .error e => .error e
    | .ok messages =>
      match messages.iterElems with
      | .error e => .error e
      | .ok msgList => collect_message_urls msgList

/-- Modelled from the claim's words: the URL of one content entry, when
its `type` is `image_url`. -/
def entry_url_spec (ms : Json) : Option Json :=
  if isImageUrlType ((ms.field? "type").getD .null) then
    (ms.field? "image_url").bind (fun imageUrlObj => imageUrlObj.field? "url")
  else none

/-- Modelled from the claim's words: the URLs contributed by one message —
the entry URLs in entry order when `content` is a list, nothing
otherwise. -/
def message_urls_spec (msg : Json) : List Json :=
  match msg.field? "content" with
  | some (Json.arr entries) => entries.filterMap entry_url_spec
  | _ => []

/-- Modelled from the claim's words: all `image_url.url` values of the
payload, in message order then entry order. -/
def image_urls_spec (parsed : Json) : List Json :=
  match parsed.field? "messages" with
  | some (Json.arr msgs) => (msgs.map message_urls_spec).flatten
  | _ => []

/-- Well-formedness of one content entry: it is a dict with a `type` key,
and when the type is `image_url` it has an `image_url` dict with a `url`
key — exactly the shape on which the source raises no exception. -/
def entry_wf (ms : Json) : Bool :=
  match ms.field? "type" with
  | none => false
  | some typ =>
    if isImageUrlType typ then
      match ms.field? "image_url" with
      | some imageUrlObj => (imageUrlObj.field? "url").isSome
      | none => false
    else true

/-- Well-formedness of one message: a dict with a `content` key whose
entries are well formed when the content is a list. -/
def message_wf (msg : Json) : Bool :=
  match msg.field? "content" with
  | some (Json.arr entries) => entries.all entry_wf
  | some _ => true
  | none => false

/-- Well-formedness of a parsed payload: a dict whose `messages` is a
list of well-formed messages. -/
def payload_wf (parsed : Json) : Bool :=
  match parsed.field? "messages" with
  | some (Json.arr msgs) => msgs.all message_wf
  | _ => false

/-! ## Model preparation cells

Embedding of the cells of the scale-to-zero notebook that adjust the
built model before deployment: they force `_is_sharded_model` on, force
`_enable_network_isolation` off, and override `image_uri` with the latest
LMI image. -/

/-- The attributes of the built model that the notebook reads or writes.
`model_data` stands for the untouched remainder of the object. -/
structure SMModel where
  model_data : String
  is_sharded_model : Bool
  enable_network_isolation : Bool
  image_uri : String
deriving DecidableEq

/-- The LMI container image the notebook selects. -/
def lmi_image_uri : String :=
  "763104351884.dkr.ecr.us-west-2.amazonaws.com/djl-inference:0.31.0-lmi13.0.0-cu124"

/-- Cell: `if not final_model._is_sharded_model: final_model._is_sharded_model = True`. -/
def ensure_sharded (m : SMModel) : SMModel :=
  if !m.is_sharded_model then { m with is_sharded_model := true } else m

/-- Cell: `if final_model._enable_network_isolation: final_model._enable_network_isolation = False`. -/
def disable_network_isolation (m : SMModel) : SMModel :=
  if m.enable_network_isolation then { m with enable_network_isolation := false } else m

/-- Cell: `final_model.image_uri = "763104351884.dkr.ecr...."`. -/
def override_image_uri (m : SMModel) : SMModel :=
  { m with image_uri := lmi_image_uri }

/-- The three preparation cells, in notebook order. -/
def prepare_final_model (m : SMModel) : SMModel :=
  override_image_uri (disable_network_isolation (ensure_sharded m))

/-! ## Resource request and scheduled `createInferenceComponent` input -/

/-- The `ResourceRequirements` requests record of the original
deployment. -/
structure ResourceRequirements where
  memory : Int
  num_accelerators : Int
  copies : Int
deriving DecidableEq

/-- `resources_required` from the scale-to-zero notebook. -/
def resources_required : ResourceRequirements :=
  ⟨104096, 4, 1⟩

/-- `input_config`, the JSON document given to the Monday
`createInferenceComponent` scheduled action. -/
def input_config (endpoint_name inference_component_name model_name variant_name : String) :
    Json :=
  .obj [
    ("EndpointName", .str endpoint_name),
    ("InferenceComponentName", .str inference_component_name),
    ("RuntimeConfig", .obj [("CopyCount", .num 2)]),
    ("Specification", .obj [
      ("ModelName", .str model_name),
      ("StartupParameters", .obj [
        ("ModelDataDownloadTimeoutInSeconds", .num 3600),
        ("ContainerStartupHealthCheckTimeoutInSeconds", .num 3600)]),
      ("ComputeResourceRequirements", .obj [
        ("MinMemoryRequiredInMb", .num 1024),
        ("NumberOfAcceleratorDevicesRequired", .num 1)])]),
    ("VariantName", .str variant_name)]

/-- The capacity a component is provisioned with: copy count, memory in
MB, accelerator count. -/
structure Capacity where
  copies : Int
  memoryMb : Int
  accelerators : Int
deriving DecidableEq

/-- The capacity requested by the original deployment's
`ResourceRequirements`. -/
def ResourceRequirements.capacity (r : ResourceRequirements) : Capacity :=
  ⟨r.copies, r.memory, r.num_accelerators⟩

/-- The capacity a `createInferenceComponent` input asks for, read from
`RuntimeConfig.CopyCount` and
`Specification.ComputeResourceRequirements`. -/
def createICCapacity (cfgJson : Json) : Option Capacity :=
  match (cfgJson.field? "RuntimeConfig").bind (fun rc => rc.field? "CopyCount") with
  | some (Json.num copies) =>
    match (cfgJson.field? "Specification").bind
        (fun sp => sp.field? "ComputeResourceRequirements") with
    | some crr =>
      match crr.field? "MinMemoryRequiredInMb", crr.field? "NumberOfAcceleratorDevicesRequired" with
      | some (Json.num mem), some (Json.num acc) => some ⟨copies, mem, acc⟩
      | _, _ => none
    | none => none
  | _ => none

/-! ## Schedule clean-up loop

Embedding of the clean-up cell: for each schedule name it calls
`scheduler.delete_schedule(Name=schedule)`, catching
`ResourceNotFoundException` (and only it) to print a message and
continue; any other client exception aborts the loop. -/

/-- Exceptions of the EventBridge Scheduler client. -/
inductive SchedulerError where
  | resourceNotFound
  | otherClientError (msg : String)
deriving DecidableEq

/-- The remote scheduler: deleting a schedule either succeeds or raises. -/
def SchedulerEnv : Type := String → Except SchedulerError Unit

/-- The clean-up loop over the schedule names, returning the printed log
lines, or the first uncaught client exception. -/
def delete_schedules (env : SchedulerEnv) : List String → Except SchedulerError (List String)
  | [] => .ok []
  | schedule :: rest =>
    match env schedule with
    | .ok _ =>
      match delete_schedules env rest with
      | .error e => .error e
      | .ok logs => .ok (("Deleted schedule " ++ schedule) :: logs)
    | .error .resourceNotFound =>
      match delete_schedules env rest with
      | .error e => .error e
      | .ok logs => .ok (("Schedule " ++ schedule ++ " not found.") :: logs)
    | .error e => .error e

/-! ## Theorems -/

/-- C2: the configuration attributes (`region_name`, `endpoint_name`,
`component_names`) set by `__init__` are unchanged after a call to
`handle`: in the state-passing embedding of the method, the attribute
state after the call equals the one set at construction, so `handle`
writes no attribute of `self`. -/
theorem handle_preserves_config (r e : String) (cns : List String) (env : Env)
    (data : String) (contextArg : Option Json) :
    (handleSt (Config.init r e cns) env data contextArg).2 = Config.init r e cns ∧
    (handleSt (Config.init r e cns) env data contextArg).2.region_name = r ∧
    (handleSt (Config.init r e cns) env data contextArg).2.endpoint_name = e ∧
    (handleSt (Config.init r e cns) env data contextArg).2.component_names = cns :=
  ⟨rfl, rfl, rfl, rfl⟩

/-- C7: `CustomOrchestrator` is an interface with the single required
method `handle(data, context)`; invoking that interface method on the
concrete subclass dispatches to `PythonCustomInferenceEntryPoint.handle`,
the single implementation. -/
theorem orchestrator_dispatch (cfg : Config) (env : Env) (data : String)
    (contextArg : Option Json) :
    (pythonCustomInferenceEntryPoint cfg env).handle data contextArg =
      handle cfg env data contextArg := rfl

/-- C10: `handle` ignores its `context` parameter entirely: for any two
context values the remote calls issued and the result returned are
identical. -/
theorem handle_ignores_context (cfg : Config) (env : Env) (data : String)
    (ctx1 ctx2 : Option Json) :
    handle cfg env data ctx1 = handle cfg env data ctx2 := rfl

/-- C8: the delete-then-recreate schedule pair is not a round trip: the
scheduled `createInferenceComponent` input asks for capacity
(copies 2, 1024 MB, 1 accelerator), which differs from the capacity of
the original deployment's `resources_required`
(copies 1, 104096 MB, 4 accelerators). -/
theorem schedule_not_round_trip (e ic m v : String) :
    createICCapacity (input_config e ic m v) = some ⟨2, 1024, 1⟩ ∧
    resources_required.capacity = ⟨1, 104096, 4⟩ ∧
    createICCapacity (input_config e ic m v) ≠ some resources_required.capacity := by
  have hne : some (⟨2, 1024, 1⟩ : Capacity) ≠ some resources_required.capacity := by decide
  exact ⟨rfl, rfl, hne⟩

/-- C4 counterexample: the notebook does alter a configuration entity
before handing it to the service — on a freshly built model with the
sharded flag off and network isolation on, the preparation cells change
the model. -/
theorem prepare_final_model_mutates :
    prepare_final_model ⟨"model-data", false, true, "sdk-default-image"⟩ ≠
      ⟨"model-data", false, true, "sdk-default-image"⟩ := by decide

/-- C4 (amended): the resource-request and schedule records are
pass-through, but the built model is altered before deployment: the
preparation cells force the sharded-model flag on, force network
isolation off, and override the image URI with the LMI image, leaving
the rest of the model unchanged. -/
theorem prepare_final_model_invariants (m : SMModel) :
    prepare_final_model m = ⟨m.model_data, true, false, lmi_image_uri⟩ := by
  cases m with
  | mk md sh ni iu =>
    unfold prepare_final_model override_image_uri disable_network_isolation ensure_sharded
    cases sh <;> cases ni <;> rfl

/-- A scheduler environment in which every deletion raises
`ResourceNotFoundException`. -/
def envAllNotFound : SchedulerEnv := fun _ => .error .resourceNotFound

/-- C3 counterexample: not every client exception propagates — when
`delete_schedule` raises `ResourceNotFoundException`, the clean-up loop
catches it, prints a message and returns normally instead of
propagating. -/
theorem delete_schedules_catches_resource_not_found :
    envAllNotFound "scale-out-schedule-1" = .error .resourceNotFound ∧
    delete_schedules envAllNotFound ["scale-out-schedule-1"] =
      .ok ["Schedule scale-out-schedule-1 not found."] ∧
    delete_schedules envAllNotFound ["scale-out-schedule-1"] ≠
      .error SchedulerError.resourceNotFound := by
  refine ⟨rfl, rfl, fun h => ?_⟩
  simp only [show delete_schedules envAllNotFound ["scale-out-schedule-1"] =
    .ok ["Schedule scale-out-schedule-1 not found."] from rfl] at h
  exact Except.noConfusion h

/-- C3 (amended): apart from the clean-up loop's handler for
`ResourceNotFoundException` (and the stream-decoding loops' handler for
`JSONDecodeError`), no exception is caught: the clean-up loop propagates
any other client exception unchanged. -/
theorem delete_schedules_propagates_other_errors (env : SchedulerEnv)
    (schedule : String) (rest : List String) (msg : String)
    (h : env schedule = .error (.otherClientError msg)) :
    delete_schedules env (schedule :: rest) = .error (.otherClientError msg) := by
  simp only [delete_schedules, h]

/-- Witness for the amended C3 theorem at a concrete environment. -/
def envThrottled : SchedulerEnv := fun _ => .error (.otherClientError "ThrottlingException")

/-- C3 (amended) witness: a concrete non-`ResourceNotFound` client
exception aborts the clean-up loop unchanged. -/
theorem delete_schedules_propagates_other_errors_witness :
    delete_schedules envThrottled ["scale-to-zero-schedule", "scale-out-schedule"] =
      .error (.otherClientError "ThrottlingException") :=
  delete_schedules_propagates_other_errors envThrottled "scale-to-zero-schedule"
    ["scale-out-schedule"] "ThrottlingException" rfl

/-- C1: for every request body, `handle` issues exactly one remote
invocation to the first inference component with the request body as the
`Body`, parses the `generated_text` field of that JSON response, issues
exactly one remote invocation to the second inference component whose
body is the dumped payload with that text under `inputs` (and
`max_new_tokens` 50), and returns the `generated_text` field of the
second response.  The trace equality shows the two calls, in order, and
nothing else. -/
theorem handle_two_stage (cfg : Config) (env : Env) (data : String)
    (contextArg : Option Json) (c0 c1 : String) (body1 body2 : String)
    (resp1 resp2 llamaText generated : Json)
    (h0 : cfg.component_names.get? 0 = some c0)
    (h1 : cfg.component_names.get? 1 = some c1)
    (henv1 : env (firstCall cfg data c0) = .ok body1)
    (hload1 : Json.loads body1 = .ok resp1)
    (hget1 : resp1.getItem "generated_text" = .ok llamaText)
    (henv2 : env (secondCall cfg llamaText c1) = .ok body2)
    (hload2 : Json.loads body2 = .ok resp2)
    (hget2 : resp2.getItem "generated_text" = .ok generated) :
    handle cfg env data contextArg =
      (.ok generated, [firstCall cfg data c0, secondCall cfg llamaText c1]) := by
  simp only [handle, invoke_workflow, h0, henv1, hload1, hget1, h1, henv2, hload2, hget2]

/-- Example configuration: the two inference components behind one
endpoint. -/
def cfgEx : Config :=
  Config.init "us-west-2" "workflow-endpoint" ["llama-component", "mistral-component"]

/-- Example response body of the first (Llama) component. -/
def bodyEx1 : String := "\x7b\"generated_text\": \"llama output\"\x7d"

/-- Example response body of the second (Mistral) component. -/
def bodyEx2 : String := "\x7b\"generated_text\": \"mistral output\"\x7d"

/-- Example environment: each component answers with its own body. -/
def envEx : Env := fun call =>
  if call.inferenceComponentName = "llama-component" then .ok bodyEx1 else .ok bodyEx2

/-- C1 witness: on a concrete configuration, environment and request
body, the two-stage theorem computes the chained result. -/
theorem handle_two_stage_witness :
    handle cfgEx envEx "request-body" none =
      (.ok (Json.str "mistral output"),
       [firstCall cfgEx "request-body" "llama-component",
        secondCall cfgEx (Json.str "llama output") "mistral-component"]) :=
  handle_two_stage cfgEx envEx "request-body" none "llama-component" "mistral-component"
    bodyEx1 bodyEx2
    (Json.obj [("generated_text", Json.str "llama output")])
    (Json.obj [("generated_text", Json.str "mistral output")])
    (Json.str "llama output") (Json.str "mistral output")
    rfl rfl rfl rfl rfl rfl rfl rfl

/-- C5: `handle` propagates, unchanged, any exception raised by either of
its two remote invocations or by parsing (or field extraction from)
either JSON response; it has no retry, timeout, or error-handling
branch, so the first exception of the pipeline is the result. -/
theorem handle_propagates_errors (cfg : Config) (env : Env) (data : String)
    (contextArg : Option Json) (c0 : String)
    (h0 : cfg.component_names.get? 0 = some c0) :
    (∀ e, env (firstCall cfg data c0) = .error e →
      handle cfg env data contextArg = (.error e, [firstCall cfg data c0])) ∧
    (∀ body1 e, env (firstCall cfg data c0) = .ok body1 →
      Json.loads body1 = .error e →
      handle cfg env data contextArg = (.error e, [firstCall cfg data c0])) ∧
    (∀ body1 resp1 e, env (firstCall cfg data c0) = .ok body1 →
      Json.loads body1 = .ok resp1 →
      resp1.getItem "generated_text" = .error e →
      handle cfg env data contextArg = (.error e, [firstCall cfg data c0])) ∧
    (∀ body1 resp1 llamaText c1 e, env (firstCall cfg data c0) = .ok body1 →
      Json.loads body1 = .ok resp1 →
      resp1.getItem "generated_text" = .ok llamaText →
      cfg.component_names.get? 1 = some c1 →
      env (secondCall cfg llamaText c1) = .error e →
      handle cfg env data contextArg =
        (.error e, [firstCall cfg data c0, secondCall cfg llamaText c1])) ∧
    (∀ body1 resp1 llamaText c1 body2 e, env (firstCall cfg data c0) = .ok body1 →
      Json.loads body1 = .ok resp1 →
      resp1.getItem "generated_text" = .ok llamaText →
      cfg.component_names.get? 1 = some c1 →
      env (secondCall cfg llamaText c1) = .ok body2 →
      Json.loads body2 = .error e →
      handle cfg env data contextArg =
        (.error e, [firstCall cfg data c0, secondCall cfg llamaText c1])) ∧
    (∀ body1 resp1 llamaText c1 body2 resp2 e, env (firstCall cfg data c0) = .ok body1 →
      Json.loads body1 = .ok resp1 →
      resp1.getItem "generated_text" = .ok llamaText →
      cfg.component_names.get? 1 = some c1 →
      env (secondCall cfg llamaText c1) = .ok body2 →
      Json.loads body2 = .ok resp2 →
      resp2.getItem "generated_text" = .error e →
      handle cfg env data contextArg =
        (.error e, [firstCall cfg data c0, secondCall cfg llamaText c1])) := by
  refine ⟨?_, ?_, ?_, ?_, ?_, ?_⟩
  · intro e he
    simp only [handle, invoke_workflow, h0, he]
  · intro body1 e he hl
    simp only [handle, invoke_workflow, h0, he, hl]
  · intro body1 resp1 e he hl hg
    simp only [handle, invoke_workflow, h0, he, hl, hg]
  · intro body1 resp1 llamaText c1 e he hl hg h1 he2
    simp only [handle, invoke_workflow, h0, he, hl, hg, h1, he2]
  · intro body1 resp1 llamaText c1 body2 e he hl hg h1 he2 hl2
    simp only [handle, invoke_workflow, h0, he, hl, hg, h1, he2, hl2]
  · intro body1 resp1 llamaText c1 body2 resp2 e he hl hg h1 he2 hl2 hg2
    simp only [handle, invoke_workflow, h0, he, hl, hg, h1, he2, hl2, hg2]

/-- Environment in which the runtime client raises on every call. -/
def envFail : Env := fun _ => .error (.clientError "ServiceUnavailable")

/-- C5 witness: a concrete client exception on the first call surfaces
unchanged as the result of `handle`. -/
theorem handle_propagates_errors_witness :
    handle cfgEx envFail "request-body" none =
      (.error (.clientError "ServiceUnavailable"),
       [firstCall cfgEx "request-body" "llama-component"]) :=
  (handle_propagates_errors cfgEx envFail "request-body" none "llama-component" rfl).1
    (.clientError "ServiceUnavailable") rfl

/-- The first call is always in the trace once component 0 exists. -/
lemma firstCall_mem_trace (cfg : Config) (env : Env) (data c0 : String)
    (h0 : cfg.component_names.get? 0 = some c0) :
    firstCall cfg data c0 ∈ (invoke_workflow cfg env data).2 := by
  simp only [invoke_workflow, h0]
  cases he : env (firstCall cfg data c0) with
  | error e => simp
  | ok body1 =>
    simp only []
    cases hl : Json.loads body1 with
    | error e => simp [hl]
    | ok resp1 =>
      simp only [hl]
      cases hg : resp1.getItem "generated_text" with
      | error e => simp [hg]
      | ok llamaText =>
        simp only [hg]
        cases h1 : cfg.component_names.get? 1 with
        | none => simp [h1]
        | some c1 =>
          simp only [h1]
          cases he2 : env (secondCall cfg llamaText c1) with
          | error e => simp [he2]
          | ok body2 =>
            simp only [he2]
            cases hl2 : Json.loads body2 with
            | error e => simp [hl2]
            | ok resp2 =>
              simp only [hl2]
              cases hg2 : resp2.getItem "generated_text" <;> simp [hg2]

/-- The second call is in the trace once the first call and the parsing
of its response have succeeded. -/
lemma secondCall_mem_trace (cfg : Config) (env : Env) (data c0 : String)
    (body1 : String) (resp1 llamaText : Json) (c1 : String)
    (h0 : cfg.component_names.get? 0 = some c0)
    (henv1 : env (firstCall cfg data c0) = .ok body1)
    (hload1 : Json.loads body1 = .ok resp1)
    (hget1 : resp1.getItem "generated_text" = .ok llamaText)
    (h1 : cfg.component_names.get? 1 = some c1) :
    secondCall cfg llamaText c1 ∈ (invoke_workflow cfg env data).2 := by
  simp only [invoke_workflow, h0, henv1, hload1, hget1, h1]
  cases he2 : env (secondCall cfg llamaText c1) with
  | error e => simp [he2]
  | ok body2 =>
    simp only [he2]
    cases hl2 : Json.loads body2 with
    | error e => simp [hl2]
    | ok resp2 =>
      simp only [hl2]
      cases hg2 : resp2.getItem "generated_text" <;> simp [hg2]

/-- C6: the two-stage handler is deterministic and strictly sequential:
two runs with the same request body whose environments return the same
responses on the calls actually issued produce the same result and the
same call trace (for any two context values), and whenever the trace
holds two calls the second was issued only after the first returned
successfully. -/
theorem handle_deterministic_sequential (cfg : Config) (env1 env2 : Env)
    (data : String) (ctx1 ctx2 : Option Json)
    (hagree : ∀ c, c ∈ (handle cfg env1 data ctx1).2 → env1 c = env2 c) :
    handle cfg env1 data ctx1 = handle cfg env2 data ctx2 ∧
    (∀ ca cb, (handle cfg env1 data ctx1).2 = [ca, cb] →
      ∃ body1, env1 ca = .ok body1) := by
  have hagree' : ∀ c, c ∈ (invoke_workflow cfg env1 data).2 → env1 c = env2 c := hagree
  constructor
  · show invoke_workflow cfg env1 data = invoke_workflow cfg env2 data
    cases h0 : cfg.component_names.get? 0 with
    | none => simp only [invoke_workflow, h0]
    | some c0 =>
      have he1 : env2 (firstCall cfg data c0) = env1 (firstCall cfg data c0) :=
        (hagree' _ (firstCall_mem_trace cfg env1 data c0 h0)).symm
      simp only [invoke_workflow, h0, he1]
      cases he : env1 (firstCall cfg data c0) with
      | error e => simp only [he]
      | ok body1 =>
        simp only [he]
        cases hl : Json.loads body1 with
        | error e => simp only [hl]
        | ok resp1 =>
          simp only [hl]
          cases hg : resp1.getItem "generated_text" with
          | error e => simp only [hg]
          | ok llamaText =>
            simp only [hg]
            cases h1 : cfg.component_names.get? 1 with
            | none => simp only [h1]
            | some c1 =>
              have he2 : env2 (secondCall cfg llamaText c1) =
                  env1 (secondCall cfg llamaText c1) :=
                (hagree' _ (secondCall_mem_trace cfg env1 data c0 body1 resp1 llamaText c1
                  h0 he hl hg h1)).symm
              simp only [h1, he2]
  · intro ca cb htr
    show ∃ body1, env1 ca = .ok body1
    cases h0 : cfg.component_names.get? 0 with
    | none =>
      simp only [handle, invoke_workflow, h0] at htr
      simp at htr
    | some c0 =>
      cases he : env1 (firstCall cfg data c0) with
      | error e =>
        simp only [handle, invoke_workflow, h0, he] at htr
        simp at htr
      | ok body1 =>
        refine ⟨body1, ?_⟩
        cases hl : Json.loads body1 with
        | error e =>
          simp only [handle, invoke_workflow, h0, he, hl] at htr
          simp at htr
        | ok resp1 =>
          cases hg : resp1.getItem "generated_text" with
          | error e =>
            simp only [handle, invoke_workflow, h0, he, hl, hg] at htr
            simp at htr
          | ok llamaText =>
            cases h1 : cfg.component_names.get? 1 with
            | none =>
              simp only [handle, invoke_workflow, h0, he, hl, hg, h1] at htr
              simp at htr
            | some c1 =>
              simp only [handle, invoke_workflow, h0, he, hl, hg, h1] at htr
              have hfirst : firstCall cfg data c0 = ca := by
                cases he2 : env1 (secondCall cfg llamaText c1) with
                | error e =>
                  simp only [he2] at htr
                  exact (List.cons.injEq _ _ _ _ ▸ htr).1
                | ok body2 =>
                  simp only [he2] at htr
                  cases hl2 : Json.loads body2 with
                  | error e =>
                    simp only [hl2] at htr
                    exact (List.cons.injEq _ _ _ _ ▸ htr).1
                  | ok resp2 =>
                    simp only [hl2] at htr
                    cases hg2 : resp2.getItem "generated_text" with
                    | error e =>
                      simp only [hg2] at htr
                      exact (List.cons.injEq _ _ _ _ ▸ htr).1
                    | ok generated =>
                      simp only [hg2] at htr
                      exact (List.cons.injEq _ _ _ _ ▸ htr).1
              exact hfirst ▸ he

/-- C6 witness: at a concrete configuration and environment, two runs
with different context values agree. -/
theorem handle_deterministic_sequential_witness :
    handle cfgEx envEx "request-body" none =
      handle cfgEx envEx "request-body" (some (Json.str "some-context")) :=
  (handle_deterministic_sequential cfgEx envEx envEx "request-body" none
    (some (Json.str "some-context")) (fun c _ => rfl)).1

/-- Subscripting agrees with pure field lookup when the field exists. -/
lemma Json.getItem_of_field? : ∀ (j : Json) (k : String) (v : Json),
    j.field? k = some v → j.getItem k = .ok v
  | .obj fields, k, v, h => by
    simp only [Json.field?] at h
    simp [Json.getItem, h]
  | .null, _, _, h => by simp [Json.field?] at h
  | .bool _, _, _, h => by simp [Json.field?] at h
  | .num _, _, _, h => by simp [Json.field?] at h
  | .str _, _, _, h => by simp [Json.field?] at h
  | .arr _, _, _, h => by simp [Json.field?] at h

/-- On well-formed entries, the inner loop collects exactly the URLs of
the entries whose type is `image_url`, in entry order. -/
lemma collect_entry_urls_spec (entries : List Json)
    (h : entries.all entry_wf = true) :
    collect_entry_urls entries = .ok (entries.filterMap entry_url_spec) := by
  induction entries with
  | nil => rfl
  | cons ms rest ih =>
    rw [List.all_cons, Bool.and_eq_true] at h
    obtain ⟨hms, hrest⟩ := h
    unfold entry_wf at hms
    cases htyp : ms.field? "type" with
    | none => rw [htyp] at hms; exact absurd hms (by simp)
    | some typ =>
      simp only [htyp] at hms
      have hgt : ms.getItem "type" = .ok typ := Json.getItem_of_field? _ _ _ htyp
      by_cases himg : isImageUrlType typ = true
      · rw [if_pos himg] at hms
        cases hiu : ms.field? "image_url" with
        | none => simp only [hiu] at hms; exact absurd hms (by simp)
        | some imageUrlObj =>
          simp only [hiu] at hms
          cases hurl : imageUrlObj.field? "url" with
          | none => simp only [hurl, Option.isSome_none] at hms; exact absurd hms (by simp)
          | some u =>
            simp only [collect_entry_urls, hgt, himg, if_true,
              Json.getItem_of_field? _ _ _ hiu, Json.getItem_of_field? _ _ _ hurl,
              ih hrest]
            simp [List.filterMap_cons, entry_url_spec, htyp, himg, hiu, hurl]
      · rw [if_neg himg] at hms
        simp only [collect_entry_urls, hgt, himg, if_false, ih hrest]
        simp [List.filterMap_cons, entry_url_spec, htyp, himg]

/-- On well-formed messages, the outer loop collects the per-message URL
lists in message order. -/
lemma collect_message_urls_spec (msgs : List Json)
    (h : msgs.all message_wf = true) :
    collect_message_urls msgs = .ok ((msgs.map message_urls_spec).flatten) := by
  induction msgs with
  | nil => rfl
  | cons msg rest ih =>
    rw [List.all_cons, Bool.and_eq_true] at h
    obtain ⟨hmsg, hrest⟩ := h
    unfold message_wf at hmsg
    cases hc : msg.field? "content" with
    | none => simp only [hc] at hmsg; exact absurd hmsg (by simp)
    | some content =>
      simp only [hc] at hmsg
      have hgc : msg.getItem "content" = .ok content := Json.getItem_of_field? _ _ _ hc
      cases content with
      | arr entries =>
        simp only at hmsg
        simp only [collect_message_urls, hgc, collect_entry_urls_spec entries hmsg,
          ih hrest]
        simp [message_urls_spec, hc]
      | null =>
        simp only [collect_message_urls, hgc, ih hrest]
        simp [message_urls_spec, hc]
      | bool b =>
        simp only [collect_message_urls, hgc, ih hrest]
        simp [message_urls_spec, hc]
      | num n =>
        simp only [collect_message_urls, hgc, ih hrest]
        simp [message_urls_spec, hc]
      | str s =>
        simp only [collect_message_urls, hgc, ih hrest]
        simp [message_urls_spec, hc]
      | obj fields =>
        simp only [collect_message_urls, hgc, ih hrest]
        simp [message_urls_spec, hc]

/-- C9: on any payload that parses to a well-formed document,
`get_image_urls` returns exactly the `image_url.url` values of the
content entries whose type is `image_url` inside messages whose content
is a list, in message order then entry order; and a message whose
content is a string contributes no URLs.  A payload with no such
entries yields the empty list as an instance of the equality. -/
theorem get_image_urls_spec_correct (payload : String) (parsed : Json)
    (hload : Json.loads payload = .ok parsed) (hwf : payload_wf parsed = true) :
    get_image_urls payload = .ok (image_urls_spec parsed) ∧
    (∀ msg s, msg.field? "content" = some (Json.str s) → message_urls_spec msg = []) := by
  constructor
  · unfold payload_wf at hwf
    cases hm : parsed.field? "messages" with
    | none => simp only [hm] at hwf; exact absurd hwf (by simp)
    | some messages =>
      simp only [hm] at hwf
      have hgm : parsed.getItem "messages" = .ok messages :=
        Json.getItem_of_field? _ _ _ hm
      cases messages with
      | arr msgs =>
        simp only at hwf
        simp only [get_image_urls, hload, hgm, Json.iterElems,
          collect_message_urls_spec msgs hwf]
        simp [image_urls_spec, hm]
      | null => simp only at hwf; exact absurd hwf (by simp)
      | bool b => simp only at hwf; exact absurd hwf (by simp)
      | num n => simp only at hwf; exact absurd hwf (by simp)
      | str s => simp only at hwf; exact absurd hwf (by simp)
      | obj fields => simp only at hwf; exact absurd hwf (by simp)
  · intro msg s hcs
    simp [message_urls_spec, hcs]

/-- Example chat payload: one image entry, one text entry, and one
string-content message. -/
def payloadEx : String :=
  "\x7b\"messages\": [\x7b\"role\": \"user\", \"content\": [\x7b\"type\": \"image_url\", \"image_url\": \x7b\"url\": \"http://images.example/cat.png\"\x7d\x7d, \x7b\"type\": \"text\", \"text\": \"describe\"\x7d]\x7d, \x7b\"role\": \"assistant\", \"content\": \"a cat\"\x7d]\x7d"

/-- The document `payloadEx` parses to. -/
def parsedEx : Json :=
  .obj [("messages", .arr [
    .obj [("role", .str "user"),
          ("content", .arr [
            .obj [("type", .str "image_url"),
                  ("image_url", .obj [("url", .str "http://images.example/cat.png")])],
            .obj [("type", .str "text"), ("text", .str "describe")]])],
    .obj [("role", .str "assistant"), ("content", .str "a cat")]])]

set_option maxRecDepth 4096 in
/-- C9 witness: on the concrete payload, exactly the single image URL is
returned. -/
theorem get_image_urls_spec_correct_witness :
    Json.loads payloadEx = .ok parsedEx ∧ payload_wf parsedEx = true ∧
    get_image_urls payloadEx = .ok [Json.str "http://images.example/cat.png"] :=
  ⟨rfl, rfl, ((get_image_urls_spec_correct payloadEx parsedEx rfl rfl).1).trans rfl⟩

end SMExamples
